import Mathlib

/-!
Verification development for the darwins_rockets repository.

Shallow embedding conventions:
* Python floats are modelled as exact rationals (ℚ); `np.finfo(float).eps`
  is the exact machine epsilon 2^(-52).
* Randomness (`random.uniform`, `random.randint`, `random.random`) is
  modelled by explicit oracle parameters: every random draw the source makes
  becomes an input of the embedded function.
* A rocket's position, velocity and trail are elided from the state: none of
  the verified claims depends on them except through (a) the Euclidean
  distance from the rocket's position to the target and (b) the
  out-of-bounds test on the position, both of which are supplied as explicit
  observation inputs wherever the source computes them (the source computes
  the distance with `Vector2D.safe_distance` / `math.hypot`, an operation
  that leaves ℚ, which is why it is taken as an input here).
-/

attribute [local semireducible] Rat.add Rat.sub Rat.mul Rat.inv

/-- Embeds `RocketConfig` from src/darwins_rockets/rocket.py (a dataclass of
constants). Floats become exact rationals. -/
structure RocketConfig where
  DEFAULT_DNA_LENGTH : ℕ
  RADIUS : ℚ
  MAX_TRAIL_LENGTH : ℕ
  VELOCITY_DAMPING : ℚ
  MAX_VELOCITY : ℚ
  MIN_THRUST_MAGNITUDE : ℚ
  MAX_THRUST_MAGNITUDE : ℚ
  TARGET_RADIUS : ℚ
  FITNESS_TARGET_REWARD : ℚ
  FITNESS_BONUS_PER_STEP : ℚ
deriving DecidableEq

/-- The default field values of the `RocketConfig` dataclass
(0.98 = 49/50, 0.1 = 1/10, 0.5 = 1/2). -/
def defaultRocketConfig : RocketConfig where
  DEFAULT_DNA_LENGTH := 100
  RADIUS := 5
  MAX_TRAIL_LENGTH := 50
  VELOCITY_DAMPING := 49 / 50
  MAX_VELOCITY := 10
  MIN_THRUST_MAGNITUDE := 1 / 10
  MAX_THRUST_MAGNITUDE := 1 / 2
  TARGET_RADIUS := 20
  FITNESS_TARGET_REWARD := 1000
  FITNESS_BONUS_PER_STEP := 10

/-- A gene: one 2D thrust vector (a numpy array of two floats in the source). -/
abbrev Gene : Type := ℚ × ℚ

/-- Embeds the `DNA` class of src/darwins_rockets/population.py: a list of
gene vectors. -/
structure DNA where
  genes : List Gene
deriving DecidableEq

/-- Embeds `DNA.random(length)`: `length` random genes.  The random draws of
`DNA.random_gene` (angle and magnitude) are modelled by the oracle `gene`
giving the resulting thrust vector for each position. -/
def DNA.randomDNA (length : ℕ) (gene : ℕ → Gene) : DNA :=
  ⟨(List.range length).map gene⟩

/-- Embeds `DNA.crossover(self, other)`: `self.genes[:point] + other.genes[point:]`.
The split point, drawn in the source by `random.randint(0, len(self.genes) - 1)`,
is the explicit argument `point`. -/
def DNA.crossover (a b : DNA) (point : ℕ) : DNA :=
  ⟨a.genes.take point ++ b.genes.drop point⟩

/-- The gene-by-gene loop of `DNA.mutate`: for the gene at index `i`, if
`random.random() < mutation_rate` (the draw modelled by `rnd i`) the gene is
replaced with a fresh random gene (`fresh i`), otherwise the gene is kept
(`gene.copy()` in the source: a copy by value, which is the identity here). -/
def mutateGo (rate : ℚ) (rnd : ℕ → ℚ) (fresh : ℕ → Gene) : ℕ → List Gene → List Gene
  | _, [] => []
  | i, g :: rest => (if rnd i < rate then fresh i else g) :: mutateGo rate rnd fresh (i + 1) rest

/-- Embeds `DNA.mutate(self, mutation_rate)`. -/
def DNA.mutate (d : DNA) (rate : ℚ) (rnd : ℕ → ℚ) (fresh : ℕ → Gene) : DNA :=
  ⟨mutateGo rate rnd fresh 0 d.genes⟩

/-- Embeds `DNA.to_list`: a per-gene copy of the genes (copies are identities
on values). -/
def DNA.to_list (d : DNA) : List Gene :=
  d.genes

/-- Embeds the `Rocket` entity of src/darwins_rockets/rocket.py, restricted to
the fields the verified claims depend on.  Position, velocity and the trail
are elided (see the header note); `acc` is kept because `_apply_thrust`
writes it from the DNA. -/
structure Rocket where
  config : RocketConfig
  dna_length : ℕ
  dna : List Gene
  current_step : ℕ
  acc : Gene
  fitness : ℚ
  has_reached_target : Bool
  target_reached_step : Option ℕ
  is_active : Bool
deriving DecidableEq

/-- A rocket as built by `World._spawn_generation`: `Rocket(start_pos, dna_length)`
(which uses the default config and initializes all evaluation state), with its
DNA then replaced by the evolved genes and `current_step` reset to 0. -/
def Rocket.fresh (dna_length : ℕ) (genes : List Gene) : Rocket where
  config := defaultRocketConfig
  dna_length := dna_length
  dna := genes
  current_step := 0
  acc := (0, 0)
  fitness := 0
  has_reached_target := false
  target_reached_step := none
  is_active := true

/-- Embeds `Rocket._apply_thrust`: while the step cursor is below the DNA
length, load the current instruction into `acc` and advance the cursor;
otherwise the rocket is out of fuel and `acc` is zeroed. -/
def Rocket.applyThrust (r : Rocket) : Rocket :=
  if r.current_step < r.dna_length then
    { r with acc := r.dna.getD r.current_step (0, 0), current_step := r.current_step + 1 }
  else
    { r with acc := (0, 0) }

/-- Embeds `Rocket.update`: early return when inactive, then `_apply_thrust`.
`_update_physics` and `_update_trail` only touch the elided position /
velocity / trail fields, and `_check_world_interactions` is `pass`, so on the
retained fields `update` is exactly the thrust step. -/
def Rocket.update (r : Rocket) : Rocket :=
  if r.is_active then r.applyThrust else r

/-- `n` successive calls of `Rocket.update`. -/
def Rocket.updateN (r : Rocket) : ℕ → Rocket
  | 0 => r
  | n + 1 => (r.updateN n).update

/-- Embeds `Rocket._handle_target_reached`: set the reached flag and record
the step cursor at the moment of arrival. -/
def Rocket.handleTargetReached (r : Rocket) : Rocket :=
  { r with has_reached_target := true, target_reached_step := some r.current_step }

/-- Embeds `Rocket._calculate_success_fitness`.  `steps_remaining` is a Python
int subtraction, so it is computed in ℤ. -/
def Rocket.calcSuccessFitness (r : Rocket) : ℚ :=
  match r.target_reached_step with
  | some s =>
      r.config.FITNESS_TARGET_REWARD +
        (((r.dna_length : ℤ) - (s : ℤ) : ℤ) : ℚ) * r.config.FITNESS_BONUS_PER_STEP
  | none => r.config.FITNESS_TARGET_REWARD

/-- The exact value of `np.finfo(float).eps`: 2^(-52). -/
def machineEps : ℚ := 1 / 2 ^ 52

/-- Embeds `Rocket._calculate_distance_fitness(distance)`: the ε-guarded
reciprocal of the distance. -/
def calcDistanceFitness (distance : ℚ) : ℚ :=
  1 / (distance + machineEps)

/-- Embeds `Rocket.evaluate_fitness(target_pos)`.  The Euclidean distance
`d` from the rocket's position to `target_pos` (computed in the source by
`Vector2D.safe_distance`) is taken as an input.  The reached check compares
`d` with the rocket's own `config.TARGET_RADIUS`. -/
def Rocket.evaluateFitness (r : Rocket) (d : ℚ) : Rocket :=
  let r1 := if d ≤ r.config.TARGET_RADIUS ∧ r.has_reached_target = false
    then r.handleTargetReached else r
  if r1.has_reached_target then { r1 with fitness := r1.calcSuccessFitness }
  else { r1 with fitness := calcDistanceFitness d }

/-- Embeds the `fuel_remaining` entry of `Rocket.get_state`:
`max(0, self.dna_length - self.current_step)` over Python ints. -/
def Rocket.fuel_remaining (r : Rocket) : ℤ :=
  max 0 ((r.dna_length : ℤ) - (r.current_step : ℤ))

/-- Embeds `Rocket.get_dna_copy`: a deep copy of the DNA (identity on values). -/
def Rocket.get_dna_copy (r : Rocket) : List Gene :=
  r.dna

/-- The binary minimum on ℚ, written with an explicit comparison so that the
kernel can evaluate it on concrete rationals. -/
def qmin (a b : ℚ) : ℚ := if a ≤ b then a else b

/-- The binary maximum on ℚ, written with an explicit comparison so that the
kernel can evaluate it on concrete rationals. -/
def qmax (a b : ℚ) : ℚ := if a ≤ b then b else a

/-- The Python builtin `min` over a (nonempty) list, with the source's guard
`min(fitnesses) if fitnesses else 0` folded in. -/
def listMin : List ℚ → ℚ
  | [] => 0
  | x :: xs => xs.foldl qmin x

/-- The Python builtin `max` over a (nonempty) list, with the source's guard
`max(fitnesses) if fitnesses else 1` folded in. -/
def listMax : List ℚ → ℚ
  | [] => 1
  | x :: xs => xs.foldl qmax x

/-- Embeds `Population._get_normalized_fitnesses(rockets)`.  The source reads
`rocket.fitness` for each rocket; the embedding takes the fitness list. -/
def getNormalizedFitnesses (fitnesses : List ℚ) : List ℚ :=
  let min_fitness := listMin fitnesses
  let max_fitness := listMax fitnesses
  if min_fitness < max_fitness then
    fitnesses.map (fun f => (f - min_fitness) / (max_fitness - min_fitness))
  else
    List.replicate fitnesses.length 1

/-- The accumulation loop of `roulette_wheel_select`: walk the normalized
fitness list keeping the running sum `current`; return the first index at
which `current >= pick`, or `none` if no index satisfies it. -/
def rouletteLoop (pick current : ℚ) : List ℚ → Option ℕ
  | [] => none
  | f :: rest =>
      if pick ≤ current + f then some 0
      else (rouletteLoop pick (current + f) rest).map (· + 1)

/-- Embeds `Population.roulette_wheel_select(rockets)`.  `u` models the
`random.randint(0, len(rockets) - 1)` draw of the degenerate branch and
`pick` models the `random.uniform(0, fitness_sum)` draw; the source's
`return len(rockets) - 1` fallback after the loop is the `getD` default. -/
def roulette_wheel_select (fitnesses : List ℚ) (u : ℕ) (pick : ℚ) : Option ℕ :=
  if fitnesses.isEmpty then none
  else
    let normalized := getNormalizedFitnesses fitnesses
    let fitness_sum := normalized.sum
    if fitness_sum = 0 then some u
    else some ((rouletteLoop pick 0 normalized).getD (fitnesses.length - 1))

/-- Restates, in the spec's words, the running prefix sums of a list
(the values taken by `current` in the source's selection loop). -/
def prefixSums : List ℚ → List ℚ
  | [] => []
  | x :: xs => x :: (prefixSums xs).map (fun s => x + s)

/-- Restates, in the spec's words, the first index of a list whose value is
`≥ pick`. -/
def firstIdxGe (pick : ℚ) : List ℚ → Option ℕ
  | [] => none
  | s :: rest =>
      if pick ≤ s then some 0
      else (firstIdxGe pick rest).map (· + 1)

/-- Restates the spec's description of the non-degenerate selection result:
the first index at which the running prefix sum of normalized fitnesses
reaches `pick`, and the last index when no prefix sum reaches `pick`. -/
def rouletteSpecIndex (normalized : List ℚ) (pick : ℚ) (n : ℕ) : ℕ :=
  (firstIdxGe pick (prefixSums normalized)).getD (n - 1)

/-- The random draws consumed for one slot of
`Population.next_generation`: the two roulette selections (`u1`/`pick1`,
`u2`/`pick2`), the crossover split point, the per-gene mutation draws and
fresh genes, and the fresh genes of the random-DNA fallback branches. -/
structure SlotRand where
  u1 : ℕ
  pick1 : ℚ
  u2 : ℕ
  pick2 : ℚ
  point : ℕ
  mutRnd : ℕ → ℚ
  mutFresh : ℕ → Gene
  freshGene : ℕ → Gene

/-- A placeholder rocket for the (provably unreachable) out-of-range case of
the Python indexings `rockets[idx1]` / `rockets[idx2]`. -/
def dummyRocket : Rocket :=
  Rocket.fresh 0 []

/-- Embeds the `Population` class, with `start_positions` reduced to its
count: the source iterates `for _ in self.start_positions` and pairs
positions with genomes positionally, so only the count feeds the claims. -/
structure Population where
  num_starts : ℕ
  dna_length : ℕ
  mutation_rate : ℚ
  dnas : List DNA

/-- Embeds `Population.next_generation(rockets)`: when the incoming rocket
list is empty every genome is drawn at random; otherwise each slot selects
two parents by roulette wheel, crosses their DNA copies over and mutates
the child, falling back to random DNA if either selection returns `None`. -/
def Population.next_generation (P : Population) (rockets : List Rocket)
    (rand : ℕ → SlotRand) : Population :=
  if rockets.isEmpty then
    let new_dnas := (List.range P.num_starts).map
      (fun i => DNA.randomDNA P.dna_length (rand i).freshGene)
    { P with dnas := new_dnas }
  else
    let new_dnas := (List.range P.num_starts).map (fun i =>
      let sr := rand i
      let fitnesses := rockets.map Rocket.fitness
      match roulette_wheel_select fitnesses sr.u1 sr.pick1,
            roulette_wheel_select fitnesses sr.u2 sr.pick2 with
      | some idx1, some idx2 =>
          ((DNA.mk (rockets.getD idx1 dummyRocket).get_dna_copy).crossover
            (DNA.mk (rockets.getD idx2 dummyRocket).get_dna_copy) sr.point).mutate
            P.mutation_rate sr.mutRnd sr.mutFresh
      | _, _ => DNA.randomDNA P.dna_length sr.freshGene)
    { P with dnas := new_dnas }

/-- Embeds `Population.get_dnas`: the genome pool as gene lists (copies are
identities on values). -/
def Population.get_dnas (P : Population) : List (List Gene) :=
  P.dnas.map DNA.to_list

/-- Embeds the `Target` entity of src/darwins_rockets/rocket.py: a static
position and radius; its `update` is a no-op. -/
structure Target where
  pos : ℚ × ℚ
  radius : ℚ
deriving DecidableEq

/-- Embeds the `self.stats` dictionary of `World`.  `float('inf')` for
`best_distance_achieved` is modelled as `none`. -/
structure Stats where
  total_rockets_reached_target : ℕ
  best_distance_achieved : Option ℚ
  rockets_reached_current_gen : ℕ
  best_fitness_current_gen : ℚ
  best_fitness_all_time : ℚ
  current_generation : ℕ
  generation_complete : Bool
deriving DecidableEq

/-- Per-rocket per-step observation of the elided kinematic state: `d` is the
Euclidean distance from the rocket's position to the target position (the
source computes it with `math.hypot` in `_calculate_rocket_stats` and with
`Vector2D.safe_distance` in `evaluate_fitness`, against the same positions)
and `oob` is the out-of-bounds test
`pos[0] < 0 or pos[0] > width or pos[1] < 0 or pos[1] > height`. -/
structure Obs where
  d : ℚ
  oob : Bool

/-- Embeds the `World` class of src/darwins_rockets/world.py, restricted to
the fields the verified claims depend on.  The `entities` list holds the
rockets plus at most one `Target` (maintained by `add_entity` /
`remove_entity`), modelled as the rocket list plus an optional target;
`width`/`height` feed only the out-of-bounds observation. -/
structure World where
  dna_length : ℕ
  rockets : List Rocket
  target : Option Target
  population : Population
  current_generation : ℕ
  generation_step : ℕ
  max_steps_per_generation : ℕ
  stats : Stats

/-- Embeds `World.set_target(x, y, radius)`: remove any existing target and
add a fresh `Target((x, y), radius)` (the default radius argument is 20). -/
def World.set_target (w : World) (x y radius : ℚ) : World :=
  { w with target := some { pos := (x, y), radius := radius } }

/-- The running accumulators of the `_calculate_rocket_stats` loop. -/
structure StatsAcc where
  best_dist : Option ℚ
  rockets_reached : ℕ
  best_fitness : ℚ

/-- The per-rocket loop of `World._calculate_rocket_stats`: evaluate the
rocket's fitness, fold its distance / reached flag / fitness into the
accumulators, then apply the out-of-bounds penalty (`fitness *= 0.1`) to the
stored rocket.  `best_dist = none` stands for the initial `float('inf')`. -/
def statsLoop (obs : ℕ → Obs) : ℕ → StatsAcc → List Rocket → List Rocket × StatsAcc
  | _, acc, [] => ([], acc)
  | i, acc, r :: rest =>
      let r1 := r.evaluateFitness (obs i).d
      let dist := (obs i).d
      let bd := match acc.best_dist with
        | none => some dist
        | some b => if dist < b then some dist else some b
      let cnt := if r1.has_reached_target then acc.rockets_reached + 1 else acc.rockets_reached
      let bf := if acc.best_fitness < r1.fitness then r1.fitness else acc.best_fitness
      let r2 := if (obs i).oob then { r1 with fitness := r1.fitness * (1 / 10) } else r1
      let res := statsLoop obs (i + 1) ⟨bd, cnt, bf⟩ rest
      (r2 :: res.1, res.2)

/-- Embeds `World._calculate_rocket_stats`: a no-op without a target or
without rockets; otherwise recompute the per-generation statistics and add
the current reached count onto the cumulative total whenever it is positive. -/
def World.calcRocketStats (w : World) (obs : ℕ → Obs) : World :=
  match w.target with
  | none => w
  | some _ =>
      if w.rockets.isEmpty then w
      else
        let res := statsLoop obs 0 ⟨none, 0, 0⟩ w.rockets
        let acc := res.2
        let total := w.stats.total_rockets_reached_target +
          (if 0 < acc.rockets_reached then acc.rockets_reached else 0)
        let stats1 := { w.stats with
          best_distance_achieved := acc.best_dist
          rockets_reached_current_gen := acc.rockets_reached
          best_fitness_current_gen := acc.best_fitness
          total_rockets_reached_target := total }
        { w with rockets := res.1, stats := stats1 }

/-- Embeds `World._should_end_generation`: end when no rockets exist, when
the step counter reached the cap, or when no rocket is still running (a
rocket still runs exactly when `current_step < dna_length` and it has not
reached the target). -/
def World.shouldEndGeneration (w : World) : Bool :=
  if w.rockets.isEmpty then true
  else if w.max_steps_per_generation ≤ w.generation_step then true
  else w.rockets.all (fun r => !(decide (r.current_step < r.dna_length) && !r.has_reached_target))

/-- Embeds `World._end_generation`: early return when no rockets remain
(leaving `generation_complete` unset); otherwise a final fitness pass against
the target (skipped when no target is set), the all-time best fitness update,
and the population's reproduction step. -/
def World.endGeneration (w : World) (obs : ℕ → Obs) (rand : ℕ → SlotRand) : World :=
  if w.rockets.isEmpty then w
  else
    let rockets1 := match w.target with
      | some _ => w.rockets.mapIdx (fun i r => r.evaluateFitness (obs i).d)
      | none => w.rockets
    let bestAll := rockets1.foldl
      (fun b r => if b < r.fitness then r.fitness else b) w.stats.best_fitness_all_time
    let stats1 := { w.stats with best_fitness_all_time := bestAll, generation_complete := true }
    { w with rockets := rockets1, population := w.population.next_generation rockets1 rand,
             stats := stats1 }

/-- Embeds `World._spawn_generation`: discard all rockets, spawn one fresh
rocket per start position from the population's current genomes (the source
zips `start_positions` with `get_dnas()`, hence the `take`), reset the step
counter and advance the generation index. -/
def World.spawnGeneration (w : World) : World :=
  let dnaSeqs := (w.population.get_dnas).take w.population.num_starts
  let newRockets := dnaSeqs.map (fun genes => Rocket.fresh w.dna_length genes)
  let stats1 := { w.stats with
    current_generation := w.current_generation + 1
    generation_complete := false }
  { w with rockets := newRockets, generation_step := 0,
           current_generation := w.current_generation + 1, stats := stats1 }

/-- The first half of `World.step`: update every entity (the target's update
is a no-op), increment the generation step counter, and recompute the
aggregate statistics. -/
def World.afterPerStepUpdates (w : World) (obs : ℕ → Obs) : World :=
  let w1 := { w with rockets := w.rockets.map Rocket.update }
  let w2 := { w1 with generation_step := w1.generation_step + 1 }
  w2.calcRocketStats obs

/-- Embeds `World.step()`: the per-step updates followed by the
end-of-generation check; when the check fires, `_end_generation` and
`_spawn_generation` run.  The returned boolean reports whether the
generation ended on this step. -/
def World.step (w : World) (obs : ℕ → Obs) (rand : ℕ → SlotRand) : World × Bool :=
  let w3 := w.afterPerStepUpdates obs
  if w3.shouldEndGeneration then (((w3.endGeneration obs rand).spawnGeneration), true)
  else (w3, false)

/-- A 5-gene zero DNA used by the concrete scenarios. -/
def zeroGenes : List Gene :=
  [(0, 0), (0, 0), (0, 0), (0, 0), (0, 0)]

/-- Concrete scenario rocket sitting on the target (distance 0). -/
def rocketAtTarget : Rocket :=
  Rocket.fresh 5 zeroGenes

/-- Concrete scenario rocket far from the target (distance 1000). -/
def rocketFar : Rocket :=
  Rocket.fresh 5 zeroGenes

/-- A two-genome population matching the concrete scenario worlds. -/
def popTwo : Population where
  num_starts := 2
  dna_length := 5
  mutation_rate := 0
  dnas := [DNA.mk zeroGenes, DNA.mk zeroGenes]

/-- Zeroed statistics as `World.__init__` creates them, after the first
spawn set `current_generation` to 1. -/
def statsGen1 : Stats where
  total_rockets_reached_target := 0
  best_distance_achieved := none
  rockets_reached_current_gen := 0
  best_fitness_current_gen := 0
  best_fitness_all_time := 0
  current_generation := 1
  generation_complete := false

/-- Concrete scenario world: two rockets of DNA length 5, a target of the
default radius, the step cap `dna_length + 50 = 55`, at the start of
generation 1. -/
def worldTwoRockets : World where
  dna_length := 5
  rockets := [rocketAtTarget, rocketFar]
  target := some { pos := (100, 100), radius := 20 }
  population := popTwo
  current_generation := 1
  generation_step := 0
  max_steps_per_generation := 55
  stats := statsGen1

/-- Observations for the concrete scenario: rocket 0 sits on the target
(distance 0), rocket 1 is 1000 away; both stay in bounds.  The zero DNA
keeps both rockets motionless, so the observations hold on every step. -/
def obsTwoRockets : ℕ → Obs :=
  fun i => if i = 0 then { d := 0, oob := false } else { d := 1000, oob := false }

/-- An arbitrary bundle of random draws (the concrete scenarios never reach
the code that consumes it). -/
def slotRandZero : SlotRand where
  u1 := 0
  pick1 := 0
  u2 := 0
  pick2 := 0
  point := 0
  mutRnd := fun _ => 1
  mutFresh := fun _ => (0, 0)
  freshGene := fun _ => (0, 0)

/-- The random-draw oracle for the concrete scenarios. -/
def randZero : ℕ → SlotRand :=
  fun _ => slotRandZero

/-- A fresh, unmarked rocket probed by the target-radius counterexample; it
sits at (100, 100), at Euclidean distance exactly 30 from (130, 100). -/
def rocketProbe : Rocket :=
  Rocket.fresh 5 zeroGenes

/-- Concrete world for the set_target counterexample: one fresh rocket, and
a target placed by `set_target(130, 100, radius=50)`.  The rocket sits at
(100, 100), at Euclidean distance exactly 30 from the target position. -/
def worldBigTarget : World :=
  World.set_target
    { dna_length := 5
      rockets := [rocketProbe]
      target := none
      population := popTwo
      current_generation := 1
      generation_step := 0
      max_steps_per_generation := 55
      stats := statsGen1 }
    130 100 50

example : getNormalizedFitnesses [5, 5] = [1, 1] := by decide
example : getNormalizedFitnesses [1, 3] = [0, 1] := by decide
example : roulette_wheel_select [] 0 0 = none := by decide
example : roulette_wheel_select [1, 3] 9 0 = some 0 := by decide
example : roulette_wheel_select [1, 3] 9 (1 / 2) = some 1 := by decide
example : roulette_wheel_select [1, 3] 0 5 = some 1 := by decide
example : ((Rocket.fresh 3 [(1, 0), (0, 1), (1, 1)]).update).current_step = 1 := by decide
example : ((Rocket.fresh 2 [(1, 0), (0, 1)]).updateN 5).current_step = 2 := by decide
example : ((Rocket.fresh 2 []).evaluateFitness 5).has_reached_target = true := by decide
example : ((Rocket.fresh 2 []).evaluateFitness 25).has_reached_target = false := by decide

/-! ### Helper lemmas -/

theorem qmin_eq_min (a b : ℚ) : qmin a b = min a b :=
  (min_def a b).symm

theorem qmax_eq_max (a b : ℚ) : qmax a b = max a b :=
  (max_def a b).symm

theorem foldl_qmin_le_init (xs : List ℚ) : ∀ a : ℚ, xs.foldl qmin a ≤ a := by
  induction xs with
  | nil => intro a; exact le_refl a
  | cons x xs ih =>
      intro a
      calc (x :: xs).foldl qmin a = xs.foldl qmin (qmin a x) := rfl
        _ ≤ qmin a x := ih (qmin a x)
        _ ≤ a := by rw [qmin_eq_min]; exact min_le_left a x

theorem foldl_qmin_le_mem (xs : List ℚ) : ∀ (a y : ℚ), y ∈ xs → xs.foldl qmin a ≤ y := by
  induction xs with
  | nil => intro a y hy; exact absurd hy (List.not_mem_nil y)
  | cons x xs ih =>
      intro a y hy
      rcases List.mem_cons.mp hy with rfl | hy
      · calc (y :: xs).foldl qmin a = xs.foldl qmin (qmin a y) := rfl
          _ ≤ qmin a y := foldl_qmin_le_init xs (qmin a y)
          _ ≤ y := by rw [qmin_eq_min]; exact min_le_right a y
      · exact ih (qmin a x) y hy

theorem listMin_le (l : List ℚ) (y : ℚ) (hy : y ∈ l) : listMin l ≤ y := by
  cases l with
  | nil => exact absurd hy (List.not_mem_nil y)
  | cons x xs =>
      rcases List.mem_cons.mp hy with rfl | hmem
      · exact foldl_qmin_le_init xs y
      · exact foldl_qmin_le_mem xs x y hmem

theorem foldl_qmax_mem (xs : List ℚ) : ∀ a : ℚ, xs.foldl qmax a = a ∨ xs.foldl qmax a ∈ xs := by
  induction xs with
  | nil => intro a; exact Or.inl rfl
  | cons x xs ih =>
      intro a
      have hstep : (x :: xs).foldl qmax a = xs.foldl qmax (qmax a x) := rfl
      rcases ih (qmax a x) with h | h
      · rw [hstep, h]
        unfold qmax
        by_cases hax : a ≤ x
        · right; rw [if_pos hax]; exact List.mem_cons_self x xs
        · left; rw [if_neg hax]
      · right; rw [hstep]; exact List.mem_cons_of_mem x h

theorem listMax_mem (l : List ℚ) (h : l ≠ []) : listMax l ∈ l := by
  cases l with
  | nil => exact absurd rfl h
  | cons x xs =>
      rcases foldl_qmax_mem xs x with heq | hmem
      · show xs.foldl qmax x ∈ x :: xs
        rw [heq]; exact List.mem_cons_self x xs
      · exact List.mem_cons_of_mem x hmem

theorem getNormalizedFitnesses_length (fs : List ℚ) :
    (getNormalizedFitnesses fs).length = fs.length := by
  unfold getNormalizedFitnesses
  by_cases h : listMin fs < listMax fs
  · rw [if_pos h, List.length_map]
  · rw [if_neg h, List.length_replicate]

theorem one_mem_normalized (fs : List ℚ) (h : fs ≠ []) :
    (1 : ℚ) ∈ getNormalizedFitnesses fs := by
  unfold getNormalizedFitnesses
  by_cases hlt : listMin fs < listMax fs
  · rw [if_pos hlt]
    refine List.mem_map.mpr ⟨listMax fs, listMax_mem fs h, ?_⟩
    exact div_self (ne_of_gt (sub_pos.mpr hlt))
  · rw [if_neg hlt]
    exact List.mem_replicate.mpr ⟨fun hlen => h (List.length_eq_zero.mp hlen), rfl⟩

theorem normalized_nonneg (fs : List ℚ) : ∀ x ∈ getNormalizedFitnesses fs, 0 ≤ x := by
  unfold getNormalizedFitnesses
  by_cases hlt : listMin fs < listMax fs
  · rw [if_pos hlt]
    intro x hx
    rcases List.mem_map.mp hx with ⟨f, hf, rfl⟩
    exact div_nonneg (sub_nonneg.mpr (listMin_le fs f hf)) (le_of_lt (sub_pos.mpr hlt))
  · rw [if_neg hlt]
    intro x hx
    rw [List.eq_of_mem_replicate hx]
    exact zero_le_one

theorem one_le_normalized_sum (fs : List ℚ) (h : fs ≠ []) :
    1 ≤ (getNormalizedFitnesses fs).sum :=
  List.single_le_sum (normalized_nonneg fs) 1 (one_mem_normalized fs h)

theorem rouletteLoop_some_lt (pick : ℚ) (l : List ℚ) :
    ∀ (c : ℚ) (i : ℕ), rouletteLoop pick c l = some i → i < l.length := by
  induction l with
  | nil => intro c i h; exact absurd h (by simp [rouletteLoop])
  | cons f rest ih =>
      intro c i h
      unfold rouletteLoop at h
      by_cases hc : pick ≤ c + f
      · rw [if_pos hc] at h
        injection h with h
        subst h
        simp only [List.length_cons]
        exact Nat.succ_pos rest.length
      · rw [if_neg hc] at h
        rcases Option.map_eq_some'.mp h with ⟨j, hj, rfl⟩
        have := ih (c + f) j hj
        simp only [List.length_cons]
        omega

theorem rouletteLoop_eq_firstIdxGe (pick : ℚ) (l : List ℚ) :
    ∀ c : ℚ, rouletteLoop pick c l = firstIdxGe pick ((prefixSums l).map (fun s => c + s)) := by
  induction l with
  | nil => intro c; rfl
  | cons f rest ih =>
      intro c
      show (if pick ≤ c + f then some 0 else (rouletteLoop pick (c + f) rest).map (· + 1))
          = firstIdxGe pick ((prefixSums (f :: rest)).map (fun s => c + s))
      have hmap : (prefixSums (f :: rest)).map (fun s => c + s)
          = (c + f) :: (prefixSums rest).map (fun s => (c + f) + s) := by
        show (f :: (prefixSums rest).map (fun s => f + s)).map (fun s => c + s)
            = (c + f) :: (prefixSums rest).map (fun s => (c + f) + s)
        rw [List.map_cons, List.map_map]
        congr 1
        exact List.map_congr_left (fun a _ => by show c + (f + a) = (c + f) + a; ring)
      rw [hmap]
      show _ = (if pick ≤ c + f then some 0
        else (firstIdxGe pick ((prefixSums rest).map (fun s => (c + f) + s))).map (· + 1))
      rw [ih (c + f)]

theorem roulette_select_some_lt (fitnesses : List ℚ) (h : fitnesses ≠ []) (u : ℕ) (pick : ℚ)
    (j : ℕ) (hj : roulette_wheel_select fitnesses u pick = some j) : j < fitnesses.length := by
  unfold roulette_wheel_select at hj
  rw [if_neg (by simpa [List.isEmpty_iff] using h)] at hj
  by_cases hsum : (getNormalizedFitnesses fitnesses).sum = 0
  · exfalso
    have := one_le_normalized_sum fitnesses h
    rw [hsum] at this
    linarith
  · rw [if_neg hsum] at hj
    injection hj with hj
    subst hj
    cases hloop : rouletteLoop pick 0 (getNormalizedFitnesses fitnesses) with
    | none =>
        have : fitnesses.length ≠ 0 := fun hlen => h (List.length_eq_zero.mp hlen)
        simp only [Option.getD_none]
        omega
    | some i =>
        simp only [Option.getD_some]
        have := rouletteLoop_some_lt pick (getNormalizedFitnesses fitnesses) 0 i hloop
        rwa [getNormalizedFitnesses_length] at this

/-- C4: on an empty agent list `roulette_wheel_select` returns no selection;
when the normalized fitness sum is 0 it returns the (uniformly drawn) random
index `u`; otherwise it returns the first index at which the running prefix
sum of normalized fitnesses reaches the pick, falling back to the last index
when no prefix sum reaches it. -/
theorem roulette_wheel_select_spec (fitnesses : List ℚ) (u : ℕ) (pick : ℚ) :
    roulette_wheel_select fitnesses u pick =
      if fitnesses = [] then none
      else if (getNormalizedFitnesses fitnesses).sum = 0 then some u
      else some (rouletteSpecIndex (getNormalizedFitnesses fitnesses) pick fitnesses.length) := by
  unfold roulette_wheel_select rouletteSpecIndex
  by_cases hempty : fitnesses = []
  · rw [if_pos hempty, if_pos (by simp [hempty])]
  · rw [if_neg hempty, if_neg (by simpa [List.isEmpty_iff] using hempty)]
    by_cases hsum : (getNormalizedFitnesses fitnesses).sum = 0
    · rw [if_pos hsum, if_pos hsum]
    · rw [if_neg hsum, if_neg hsum]
      congr 1
      have hzero : (prefixSums (getNormalizedFitnesses fitnesses)).map (fun s => 0 + s)
          = prefixSums (getNormalizedFitnesses fitnesses) := by
        simp
      rw [rouletteLoop_eq_firstIdxGe pick _ 0, hzero]

/-- C9: for every non-empty fitness list the min-max normalized list contains
the value 1, its sum is at least 1 (hence non-zero), and therefore the
`fitness_sum == 0` uniform-random fallback of `roulette_wheel_select` is
unreachable: the selection result does not depend on the `randint` draw. -/
theorem normalized_sum_ge_one (fitnesses : List ℚ) (h : fitnesses ≠ []) :
    (1 : ℚ) ∈ getNormalizedFitnesses fitnesses
    ∧ 1 ≤ (getNormalizedFitnesses fitnesses).sum
    ∧ (getNormalizedFitnesses fitnesses).sum ≠ 0
    ∧ ∀ (u v : ℕ) (pick : ℚ),
        roulette_wheel_select fitnesses u pick = roulette_wheel_select fitnesses v pick := by
  have hsum := one_le_normalized_sum fitnesses h
  have hne : (getNormalizedFitnesses fitnesses).sum ≠ 0 := by
    intro h0; rw [h0] at hsum; linarith
  refine ⟨one_mem_normalized fitnesses h, hsum, hne, ?_⟩
  intro u v pick
  unfold roulette_wheel_select
  have hempty : fitnesses.isEmpty = false := by simpa [List.isEmpty_iff] using h
  simp [hempty, hne]

/-- Witness for C9 at the concrete fitness list [1, 3]. -/
theorem normalized_sum_ge_one_witness :
    ((1 : ℚ) ∈ getNormalizedFitnesses [1, 3]
      ∧ 1 ≤ (getNormalizedFitnesses [1, 3]).sum)
    ∧ roulette_wheel_select [1, 3] 0 (1 / 2) = roulette_wheel_select [1, 3] 1 (1 / 2) :=
  ⟨⟨(normalized_sum_ge_one [1, 3] (by decide)).1,
    (normalized_sum_ge_one [1, 3] (by decide)).2.1⟩,
   (normalized_sum_ge_one [1, 3] (by decide)).2.2.2 0 1 (1 / 2)⟩

theorem mutateGo_length (rate : ℚ) (rnd : ℕ → ℚ) (fresh : ℕ → Gene) :
    ∀ (i : ℕ) (gs : List Gene), (mutateGo rate rnd fresh i gs).length = gs.length := by
  intro i gs
  induction gs generalizing i with
  | nil => rfl
  | cons g rest ih => simp [mutateGo, ih]

theorem mutate_length (d : DNA) (rate : ℚ) (rnd : ℕ → ℚ) (fresh : ℕ → Gene) :
    (d.mutate rate rnd fresh).genes.length = d.genes.length :=
  mutateGo_length rate rnd fresh 0 d.genes

theorem crossover_length (a b : DNA) (L point : ℕ) (ha : a.genes.length = L)
    (hb : b.genes.length = L) : (a.crossover b point).genes.length = L := by
  show (a.genes.take point ++ b.genes.drop point).length = L
  rw [List.length_append, List.length_take, List.length_drop, ha, hb]
  omega

theorem randomDNA_length (L : ℕ) (gene : ℕ → Gene) :
    (DNA.randomDNA L gene).genes.length = L := by
  show ((List.range L).map gene).length = L
  rw [List.length_map, List.length_range]

theorem next_generation_dnas_empty (P : Population) (rockets : List Rocket)
    (rand : ℕ → SlotRand) (h : rockets.isEmpty = true) :
    (P.next_generation rockets rand).dnas
      = (List.range P.num_starts).map (fun i => DNA.randomDNA P.dna_length (rand i).freshGene) := by
  unfold Population.next_generation
  rw [if_pos h]

theorem next_generation_dnas_nonempty (P : Population) (rockets : List Rocket)
    (rand : ℕ → SlotRand) (h : rockets.isEmpty = false) :
    (P.next_generation rockets rand).dnas
      = (List.range P.num_starts).map (fun i =>
          let sr := rand i
          let fitnesses := rockets.map Rocket.fitness
          match roulette_wheel_select fitnesses sr.u1 sr.pick1,
                roulette_wheel_select fitnesses sr.u2 sr.pick2 with
          | some idx1, some idx2 =>
              ((DNA.mk (rockets.getD idx1 dummyRocket).get_dna_copy).crossover
                (DNA.mk (rockets.getD idx2 dummyRocket).get_dna_copy) sr.point).mutate
                P.mutation_rate sr.mutRnd sr.mutFresh
          | _, _ => DNA.randomDNA P.dna_length sr.freshGene) := by
  unfold Population.next_generation
  rw [if_neg (by simp [h])]

/-- C6: crossover of two length-L parents yields a length-L child, mutation
preserves the gene count, and `next_generation` (both its evolved and its
random-bootstrap branches) produces only genomes of the configured
`dna_length` whenever the incoming rockets carry genomes of that length. -/
theorem genome_length_invariant :
    (∀ (a b : DNA) (L point : ℕ), a.genes.length = L → b.genes.length = L →
      (a.crossover b point).genes.length = L)
    ∧ (∀ (d : DNA) (rate : ℚ) (rnd : ℕ → ℚ) (fresh : ℕ → Gene),
      (d.mutate rate rnd fresh).genes.length = d.genes.length)
    ∧ (∀ (P : Population) (rockets : List Rocket) (rand : ℕ → SlotRand),
      (∀ r ∈ rockets, r.dna.length = P.dna_length) →
      ∀ dna ∈ (P.next_generation rockets rand).dnas, dna.genes.length = P.dna_length) := by
  refine ⟨crossover_length, mutate_length, ?_⟩
  intro P rockets rand hr dna hdna
  by_cases hemp : rockets.isEmpty
  · rw [next_generation_dnas_empty P rockets rand hemp] at hdna
    rcases List.mem_map.mp hdna with ⟨i, _, rfl⟩
    exact randomDNA_length P.dna_length (rand i).freshGene
  · have hemp2 : rockets.isEmpty = false := by
      cases hb : rockets.isEmpty
      · rfl
      · exact absurd hb hemp
    rw [next_generation_dnas_nonempty P rockets rand hemp2] at hdna
    rcases List.mem_map.mp hdna with ⟨i, _, rfl⟩
    have hne : rockets ≠ [] := by
      intro h0
      rw [h0] at hemp2
      exact absurd hemp2 (by decide)
    have hfitsne : rockets.map Rocket.fitness ≠ [] := by
      simpa using hne
    cases h1 : roulette_wheel_select (rockets.map Rocket.fitness) (rand i).u1 (rand i).pick1 with
    | none => simp only [h1]; exact randomDNA_length P.dna_length (rand i).freshGene
    | some idx1 =>
        cases h2 : roulette_wheel_select (rockets.map Rocket.fitness) (rand i).u2 (rand i).pick2 with
        | none => simp only [h1, h2]; exact randomDNA_length P.dna_length (rand i).freshGene
        | some idx2 =>
            simp only [h1, h2]
            have hidx1 : idx1 < rockets.length := by
              have := roulette_select_some_lt (rockets.map Rocket.fitness) hfitsne _ _ idx1 h1
              rwa [List.length_map] at this
            have hidx2 : idx2 < rockets.length := by
              have := roulette_select_some_lt (rockets.map Rocket.fitness) hfitsne _ _ idx2 h2
              rwa [List.length_map] at this
            have hlen1 : (DNA.mk (rockets.getD idx1 dummyRocket).get_dna_copy).genes.length
                = P.dna_length := by
              show (rockets.getD idx1 dummyRocket).dna.length = P.dna_length
              rw [List.getD_eq_getElem rockets dummyRocket hidx1]
              exact hr _ (List.getElem_mem hidx1)
            have hlen2 : (DNA.mk (rockets.getD idx2 dummyRocket).get_dna_copy).genes.length
                = P.dna_length := by
              show (rockets.getD idx2 dummyRocket).dna.length = P.dna_length
              rw [List.getD_eq_getElem rockets dummyRocket hidx2]
              exact hr _ (List.getElem_mem hidx2)
            rw [mutate_length]
            exact crossover_length _ _ P.dna_length (rand i).point hlen1 hlen2

/-- Witness for C6: a concrete crossover of 2-gene parents, and a concrete
genome produced by `next_generation` from the two-rocket scenario. -/
theorem genome_length_invariant_witness :
    ((DNA.mk [(1, 0), (2, 0)]).crossover (DNA.mk [(3, 0), (4, 0)]) 1).genes.length = 2
    ∧ (DNA.mk zeroGenes).genes.length = 5 :=
  ⟨genome_length_invariant.1 (DNA.mk [(1, 0), (2, 0)]) (DNA.mk [(3, 0), (4, 0)]) 2 1 rfl rfl,
   genome_length_invariant.2.2 popTwo [rocketAtTarget, rocketFar] randZero (by decide)
     (DNA.mk zeroGenes) (by decide)⟩

/-- C7: for equal-length parents and any split index below the length, the
crossover child's first `point` genes equal parent A's first `point` genes
and its genes from `point` onward equal parent B's genes from `point`
onward. -/
theorem crossover_boundary (a b : DNA) (L point : ℕ) (ha : a.genes.length = L)
    (hb : b.genes.length = L) (hpoint : point < L) :
    (a.crossover b point).genes.take point = a.genes.take point
    ∧ (a.crossover b point).genes.drop point = b.genes.drop point := by
  have htake : (a.genes.take point).length = point := by
    rw [List.length_take]
    omega
  constructor
  · show (a.genes.take point ++ b.genes.drop point).take point = a.genes.take point
    rw [List.take_left' htake]
  · show (a.genes.take point ++ b.genes.drop point).drop point = b.genes.drop point
    rw [List.drop_left' htake]

/-- Witness for C7 at 3-gene parents and split index 1. -/
theorem crossover_boundary_witness :
    (((DNA.mk [(1, 0), (2, 0), (3, 0)]).crossover (DNA.mk [(4, 0), (5, 0), (6, 0)]) 1).genes.take 1
        = (DNA.mk [(1, 0), (2, 0), (3, 0)]).genes.take 1)
    ∧ (((DNA.mk [(1, 0), (2, 0), (3, 0)]).crossover (DNA.mk [(4, 0), (5, 0), (6, 0)]) 1).genes.drop 1
        = (DNA.mk [(4, 0), (5, 0), (6, 0)]).genes.drop 1) :=
  crossover_boundary (DNA.mk [(1, 0), (2, 0), (3, 0)]) (DNA.mk [(4, 0), (5, 0), (6, 0)]) 3 1
    rfl rfl (by decide)

/-- C8: with mutation rate 0 (and the `random.random()` draws lying in
[0, 1) as they always do), `mutate` returns a genome gene-for-gene equal to
the input; the source builds the result from `gene.copy()` calls, so the
returned genome shares no gene storage with the input. -/
theorem mutate_rate_zero_identity (d : DNA) (rnd : ℕ → ℚ) (fresh : ℕ → Gene)
    (h : ∀ i : ℕ, 0 ≤ rnd i) : (d.mutate 0 rnd fresh).genes = d.genes := by
  show mutateGo 0 rnd fresh 0 d.genes = d.genes
  have hgo : ∀ (i : ℕ) (gs : List Gene), mutateGo 0 rnd fresh i gs = gs := by
    intro i gs
    induction gs generalizing i with
    | nil => rfl
    | cons g rest ih =>
        show (if rnd i < 0 then fresh i else g) :: mutateGo 0 rnd fresh (i + 1) rest = g :: rest
        rw [if_neg (not_lt.mpr (h i)), ih (i + 1)]
  exact hgo 0 d.genes

/-- Witness for C8 at a concrete 2-gene genome. -/
theorem mutate_rate_zero_identity_witness :
    ((DNA.mk [(1, 2), (3, 4)]).mutate 0 (fun _ => 1 / 2) (fun _ => (9, 9))).genes
      = [(1, 2), (3, 4)] :=
  mutate_rate_zero_identity (DNA.mk [(1, 2), (3, 4)]) (fun _ => 1 / 2) (fun _ => (9, 9))
    (fun _ => by norm_num)

theorem update_cursor_char (s : Rocket) :
    (s.update).current_step
      = (if s.is_active = true ∧ s.current_step < s.dna_length
         then s.current_step + 1 else s.current_step)
    ∧ (s.update).dna_length = s.dna_length := by
  unfold Rocket.update Rocket.applyThrust
  cases ha : s.is_active
  · simp [ha]
  · by_cases hcs : s.current_step < s.dna_length
    · simp [ha, hcs]
    · simp [ha, hcs]

theorem updateN_cursor_le (r : Rocket) (h : r.current_step ≤ r.dna_length) :
    ∀ n : ℕ, (r.updateN n).current_step ≤ (r.updateN n).dna_length
      ∧ (r.updateN n).dna_length = r.dna_length := by
  intro n
  induction n with
  | zero => exact ⟨h, rfl⟩
  | succ n ih =>
      obtain ⟨hle, hlen⟩ := ih
      have hchar := update_cursor_char (r.updateN n)
      constructor
      · show ((r.updateN n).update).current_step ≤ ((r.updateN n).update).dna_length
        rw [hchar.1, hchar.2]
        by_cases hc : (r.updateN n).is_active = true
            ∧ (r.updateN n).current_step < (r.updateN n).dna_length
        · rw [if_pos hc]; omega
        · rw [if_neg hc]; exact hle
      · show ((r.updateN n).update).dna_length = r.dna_length
        rw [hchar.2, hlen]

/-- C10: starting from a cursor within bounds, any number of `update()` calls
keeps `current_step ≤ dna_length` (the DNA length never changing), the
`fuel_remaining` reported by `get_state` equals the unclamped difference (so
the `max(0, ...)` clamp never changes the value), and a single `update`
increments the cursor exactly when the rocket is active with the cursor
strictly below the DNA length, leaving it unchanged otherwise. -/
theorem cursor_never_exceeds_dna_length (r : Rocket) (n : ℕ)
    (h : r.current_step ≤ r.dna_length) :
    ((r.updateN n).current_step ≤ (r.updateN n).dna_length
      ∧ (r.updateN n).dna_length = r.dna_length
      ∧ (r.updateN n).fuel_remaining
          = ((r.updateN n).dna_length : ℤ) - ((r.updateN n).current_step : ℤ))
    ∧ ∀ s : Rocket, (s.update).current_step
        = if s.is_active = true ∧ s.current_step < s.dna_length
          then s.current_step + 1 else s.current_step := by
  refine ⟨?_, fun s => (update_cursor_char s).1⟩
  obtain ⟨hle, hlen⟩ := updateN_cursor_le r h n
  refine ⟨hle, hlen, ?_⟩
  unfold Rocket.fuel_remaining
  have hnn : (0 : ℤ) ≤ ((r.updateN n).dna_length : ℤ) - ((r.updateN n).current_step : ℤ) := by
    omega
  rw [max_eq_right hnn]

/-- Witness for C10 at a concrete rocket run for 7 steps. -/
theorem cursor_never_exceeds_dna_length_witness :
    (((Rocket.fresh 5 zeroGenes).updateN 7).current_step
        ≤ ((Rocket.fresh 5 zeroGenes).updateN 7).dna_length
      ∧ ((Rocket.fresh 5 zeroGenes).updateN 7).fuel_remaining
          = (((Rocket.fresh 5 zeroGenes).updateN 7).dna_length : ℤ)
            - (((Rocket.fresh 5 zeroGenes).updateN 7).current_step : ℤ))
    ∧ ((rocketFar.update).current_step
        = if rocketFar.is_active = true ∧ rocketFar.current_step < rocketFar.dna_length
          then rocketFar.current_step + 1 else rocketFar.current_step) :=
  ⟨⟨(cursor_never_exceeds_dna_length (Rocket.fresh 5 zeroGenes) 7 (by decide)).1.1,
    (cursor_never_exceeds_dna_length (Rocket.fresh 5 zeroGenes) 7 (by decide)).1.2.2⟩,
   (cursor_never_exceeds_dna_length (Rocket.fresh 5 zeroGenes) 7 (by decide)).2 rocketFar⟩

theorem evaluateFitness_flag (r : Rocket) (d : ℚ) :
    (r.evaluateFitness d).has_reached_target
      = (decide (d ≤ r.config.TARGET_RADIUS) || r.has_reached_target) := by
  unfold Rocket.evaluateFitness Rocket.handleTargetReached
  by_cases hd : d ≤ r.config.TARGET_RADIUS
  · cases hflag : r.has_reached_target
    · simp [hd, hflag]
    · simp [hd, hflag]
  · cases hflag : r.has_reached_target
    · simp [hd, hflag]
    · simp [hd, hflag]

theorem evaluateFitness_step_field (r : Rocket) (d : ℚ) :
    (r.evaluateFitness d).target_reached_step
      = if d ≤ r.config.TARGET_RADIUS ∧ r.has_reached_target = false
        then some r.current_step else r.target_reached_step := by
  unfold Rocket.evaluateFitness Rocket.handleTargetReached
  by_cases hd : d ≤ r.config.TARGET_RADIUS
  · cases hflag : r.has_reached_target
    · simp [hd, hflag]
    · simp [hd, hflag]
  · cases hflag : r.has_reached_target
    · simp [hd, hflag]
    · simp [hd, hflag]

/-- C2 (amended): a fitness evaluation marks the rocket as having reached
the target exactly when the distance is at most the rocket's own configured
`TARGET_RADIUS` (20 under the default configuration used for every spawned
rocket) and it was not previously marked; the reached flag, once set, stays
set, and the recorded arrival step is written only on the first marking and
never overwritten afterwards.  The radius of the `Target` entity installed
by `set_target` plays no role in this check. -/
theorem evaluate_fitness_marking (r : Rocket) (d : ℚ) :
    ((r.evaluateFitness d).has_reached_target
        = (decide (d ≤ r.config.TARGET_RADIUS) || r.has_reached_target))
    ∧ ((r.evaluateFitness d).target_reached_step
        = if d ≤ r.config.TARGET_RADIUS ∧ r.has_reached_target = false
          then some r.current_step else r.target_reached_step)
    ∧ defaultRocketConfig.TARGET_RADIUS = 20 :=
  ⟨evaluateFitness_flag r d, evaluateFitness_step_field r d, rfl⟩

/-- C2 counterexample: after `set_target(130, 100, radius=50)`, a fresh
rocket at Euclidean distance 30 from the target position (30 ≤ 50, never
previously marked) is NOT marked as having reached the target by a fitness
evaluation — neither by a direct `evaluate_fitness` call nor through the
world's per-step stats pass — because the check uses the rocket's configured
radius 20, not the target's radius. -/
theorem evaluate_fitness_target_radius_counterexample :
    worldBigTarget.target = some { pos := (130, 100), radius := 50 }
    ∧ ((30 : ℚ) ≤ 50 ∧ rocketProbe.has_reached_target = false)
    ∧ (rocketProbe.evaluateFitness 30).has_reached_target = false
    ∧ ((worldBigTarget.calcRocketStats (fun _ => { d := 30, oob := false })).rockets.map
        (fun r => r.has_reached_target)) = [false] := by
  decide

theorem success_fitness_ge_reward (r : Rocket) (hc : r.config = defaultRocketConfig)
    (hstep : ∀ s : ℕ, r.target_reached_step = some s → s ≤ r.dna_length) :
    1000 ≤ r.calcSuccessFitness := by
  unfold Rocket.calcSuccessFitness
  cases hts : r.target_reached_step with
  | none =>
      rw [hc]
      norm_num [defaultRocketConfig]
  | some s =>
      rw [hc]
      have hs := hstep s hts
      have hnn : (0 : ℚ) ≤ (((r.dna_length : ℤ) - (s : ℤ) : ℤ) : ℚ) := by
        have hint : (0 : ℤ) ≤ (r.dna_length : ℤ) - (s : ℤ) := by omega
        exact_mod_cast hint
      have hterm : (0 : ℚ) ≤ (((r.dna_length : ℤ) - (s : ℤ) : ℤ) : ℚ)
          * defaultRocketConfig.FITNESS_BONUS_PER_STEP :=
        mul_nonneg hnn (by norm_num [defaultRocketConfig])
      show (1000 : ℚ) ≤ defaultRocketConfig.FITNESS_TARGET_REWARD
          + (((r.dna_length : ℤ) - (s : ℤ) : ℤ) : ℚ) * defaultRocketConfig.FITNESS_BONUS_PER_STEP
      have hrw : defaultRocketConfig.FITNESS_TARGET_REWARD = 1000 := rfl
      rw [hrw]
      linarith

theorem evaluateFitness_not_reached_inv (r : Rocket) (d : ℚ)
    (h : (r.evaluateFitness d).has_reached_target = false) :
    ¬ d ≤ r.config.TARGET_RADIUS ∧ r.has_reached_target = false := by
  have hflag := (evaluateFitness_flag r d).symm.trans h
  rw [Bool.or_eq_false_iff] at hflag
  exact ⟨of_decide_eq_false hflag.1, hflag.2⟩

theorem evaluateFitness_fitness_not_reached (r : Rocket) (d : ℚ)
    (hd : ¬ d ≤ r.config.TARGET_RADIUS) (hf : r.has_reached_target = false) :
    (r.evaluateFitness d).fitness = calcDistanceFitness d := by
  unfold Rocket.evaluateFitness
  simp [hd, hf]

theorem evaluateFitness_fitness_reached_ge (r : Rocket) (d : ℚ)
    (hc : r.config = defaultRocketConfig)
    (hcs : r.current_step ≤ r.dna_length)
    (hstep : ∀ s : ℕ, r.target_reached_step = some s → s ≤ r.dna_length)
    (h : (r.evaluateFitness d).has_reached_target = true) :
    1000 ≤ (r.evaluateFitness d).fitness := by
  unfold Rocket.evaluateFitness
  by_cases hcond : d ≤ r.config.TARGET_RADIUS ∧ r.has_reached_target = false
  · simp only [if_pos hcond, Rocket.handleTargetReached]
    have hmarked : 1000 ≤ (Rocket.calcSuccessFitness
        { r with has_reached_target := true, target_reached_step := some r.current_step }) := by
      apply success_fitness_ge_reward
      · exact hc
      · intro s hs
        injection hs with hs
        show s ≤ r.dna_length
        omega
    simpa using hmarked
  · simp only [if_neg hcond]
    cases hflag : r.has_reached_target
    · exfalso
      have := (evaluateFitness_flag r d).symm.trans h
      rw [Bool.or_eq_true_iff] at this
      rcases this with hdec | hff
      · exact hcond ⟨of_decide_eq_true hdec, hflag⟩
      · rw [hflag] at hff
        exact absurd hff (by decide)
    · simp only [hflag]
      have := success_fitness_ge_reward r hc hstep
      simpa using this

/-- C5: under the default constants, a rocket marked as having reached the
target by `evaluate_fitness` gets a strictly greater fitness than any rocket
the same evaluation leaves unmarked (its fitness is the reciprocal of a
distance exceeding the 20-radius, hence below 1/20, while the reached
fitness is at least the 1000 reward). -/
theorem target_arrival_fitness_dominance (r1 r2 : Rocket) (d1 d2 : ℚ)
    (hc1 : r1.config = defaultRocketConfig) (hc2 : r2.config = defaultRocketConfig)
    (hcs : r1.current_step ≤ r1.dna_length)
    (hstep : ∀ s : ℕ, r1.target_reached_step = some s → s ≤ r1.dna_length)
    (h1 : (r1.evaluateFitness d1).has_reached_target = true)
    (h2 : (r2.evaluateFitness d2).has_reached_target = false) :
    (r2.evaluateFitness d2).fitness < (r1.evaluateFitness d1).fitness := by
  obtain ⟨hd2, hf2⟩ := evaluateFitness_not_reached_inv r2 d2 h2
  have hfit2 : (r2.evaluateFitness d2).fitness = calcDistanceFitness d2 :=
    evaluateFitness_fitness_not_reached r2 d2 hd2 hf2
  have hd2gt : (20 : ℚ) < d2 := by
    rw [hc2] at hd2
    have : ¬ d2 ≤ 20 := by
      simpa [defaultRocketConfig] using hd2
    linarith [not_le.mp this]
  have heps : (0 : ℚ) < machineEps := by norm_num [machineEps]
  have hfit2lt : calcDistanceFitness d2 < 1 / 20 := by
    unfold calcDistanceFitness
    exact one_div_lt_one_div_of_lt (by norm_num) (by linarith)
  have hfit1 := evaluateFitness_fitness_reached_ge r1 d1 hc1 hcs hstep h1
  calc (r2.evaluateFitness d2).fitness = calcDistanceFitness d2 := hfit2
    _ < 1 / 20 := hfit2lt
    _ < 1000 := by norm_num
    _ ≤ (r1.evaluateFitness d1).fitness := hfit1

/-- Witness for C5: a reached rocket (distance 0) strictly dominates an
unreached rocket (distance 100). -/
theorem target_arrival_fitness_dominance_witness :
    ((Rocket.fresh 5 zeroGenes).evaluateFitness 100).fitness
      < ((Rocket.fresh 5 zeroGenes).evaluateFitness 0).fitness :=
  target_arrival_fitness_dominance (Rocket.fresh 5 zeroGenes) (Rocket.fresh 5 zeroGenes) 0 100
    rfl rfl (by decide) (fun s hs => by simp [Rocket.fresh] at hs) (by decide) (by decide)

theorem calcRocketStats_preserves (w : World) (obs : ℕ → Obs) :
    (w.calcRocketStats obs).max_steps_per_generation = w.max_steps_per_generation
    ∧ (w.calcRocketStats obs).generation_step = w.generation_step := by
  unfold World.calcRocketStats
  cases htgt : w.target with
  | none => exact ⟨rfl, rfl⟩
  | some t =>
      by_cases hemp : w.rockets.isEmpty
      · rw [if_pos hemp]
        exact ⟨rfl, rfl⟩
      · rw [if_neg hemp]
        exact ⟨rfl, rfl⟩

theorem step_decision (w : World) (obs : ℕ → Obs) (rand : ℕ → SlotRand) :
    (w.step obs rand).2 = (w.afterPerStepUpdates obs).shouldEndGeneration := by
  unfold World.step
  by_cases h : (w.afterPerStepUpdates obs).shouldEndGeneration
  · rw [if_pos h, h]
  · rw [if_neg h, (Bool.not_eq_true _).mp h]

theorem rocket_finished_bool (r : Rocket) :
    (!(decide (r.current_step < r.dna_length) && !r.has_reached_target)) = true
      ↔ (r.dna_length ≤ r.current_step ∨ r.has_reached_target = true) := by
  cases hflag : r.has_reached_target
  · by_cases hlt : r.current_step < r.dna_length
    · simp [hlt, hflag]
      try omega
    · simp [hlt, hflag]
      try omega
  · simp [hflag]

theorem shouldEndGeneration_iff (w : World) :
    w.shouldEndGeneration = true ↔
      (w.rockets = []
        ∨ w.max_steps_per_generation ≤ w.generation_step
        ∨ ∀ r ∈ w.rockets, r.dna_length ≤ r.current_step ∨ r.has_reached_target = true) := by
  unfold World.shouldEndGeneration
  by_cases hemp : w.rockets.isEmpty
  · rw [if_pos hemp]
    simp [List.isEmpty_iff.mp hemp]
  · rw [if_neg hemp]
    have hne : ¬ w.rockets = [] := fun h0 => hemp (by simp [h0])
    by_cases hcap : w.max_steps_per_generation ≤ w.generation_step
    · rw [if_pos hcap]
      simp [hcap]
    · rw [if_neg hcap]
      constructor
      · intro hall
        refine Or.inr (Or.inr ?_)
        intro r hr
        exact (rocket_finished_bool r).mp (List.all_eq_true.mp hall r hr)
      · intro hdisj
        rcases hdisj with h0 | hcap2 | hall
        · exact absurd h0 hne
        · exact absurd hcap2 hcap
        · rw [List.all_eq_true]
          intro r hr
          exact (rocket_finished_bool r).mpr (hall r hr)

/-- C3: a call to `World.step()` ends the generation (running
`_end_generation` then `_spawn_generation`) exactly when, after the per-step
updates and stats pass, no rockets exist, or the step counter is at least
`dna_length + 50`, or every rocket is finished — finished meaning its step
cursor has reached its DNA length or it has been flagged as having reached
the target. -/
theorem step_ends_generation_iff (w : World) (obs : ℕ → Obs) (rand : ℕ → SlotRand)
    (hmax : w.max_steps_per_generation = w.dna_length + 50) :
    (w.step obs rand).2 = true ↔
      ((w.afterPerStepUpdates obs).rockets = []
        ∨ w.dna_length + 50 ≤ (w.afterPerStepUpdates obs).generation_step
        ∨ ∀ r ∈ (w.afterPerStepUpdates obs).rockets,
            r.dna_length ≤ r.current_step ∨ r.has_reached_target = true) := by
  rw [step_decision, shouldEndGeneration_iff]
  have hpres : (w.afterPerStepUpdates obs).max_steps_per_generation
      = w.max_steps_per_generation := by
    unfold World.afterPerStepUpdates
    exact (calcRocketStats_preserves _ obs).1
  rw [hpres, hmax]

/-- Witness for C3 at the concrete two-rocket scenario world. -/
theorem step_ends_generation_iff_witness :
    (worldTwoRockets.step obsTwoRockets randZero).2 = true ↔
      ((worldTwoRockets.afterPerStepUpdates obsTwoRockets).rockets = []
        ∨ worldTwoRockets.dna_length + 50
            ≤ (worldTwoRockets.afterPerStepUpdates obsTwoRockets).generation_step
        ∨ ∀ r ∈ (worldTwoRockets.afterPerStepUpdates obsTwoRockets).rockets,
            r.dna_length ≤ r.current_step ∨ r.has_reached_target = true) :=
  step_ends_generation_iff worldTwoRockets obsTwoRockets randZero rfl

/-- C1 (code bug): `_calculate_rocket_stats` adds the whole per-generation
reached count onto `total_rockets_reached_target` on every step, so a rocket
that reached the target and stays in a still-running generation is counted
again on each subsequent step: in the two-rocket scenario the total is 1
after one step but reads 2 after two steps, although exactly one rocket has
ever reached the target. -/
theorem total_reached_double_counted :
    ((worldTwoRockets.step obsTwoRockets randZero).1).stats.total_rockets_reached_target = 1
    ∧ (((worldTwoRockets.step obsTwoRockets randZero).1.step obsTwoRockets
        randZero).1).stats.total_rockets_reached_target = 2
    ∧ ((((worldTwoRockets.step obsTwoRockets randZero).1.step obsTwoRockets
        randZero).1).rockets.filter (fun r => r.has_reached_target)).length = 1 := by
  decide
